import Mathlib

/-!
Verification of the dependency-graph visualizer
(`src/graph-based/11-visualize-graph.py`).

The script has two core functions:

* `build_dependency_graph(sentence)` builds a `networkx.DiGraph` from a
  list of CoNLL-U tokens: one node per token (keyed by `id`, labelled
  `form + "/" + upos`) and, for every token whose `head` is present and
  not `0`, one directed edge `head -> id` labelled `deprel`.
* `visualize_graph(G, sent_id, output_dir)` lays the graph out with
  `nx.spring_layout`, draws nodes, edges, node labels and edge labels
  with matplotlib, saves the figure as a PNG and shows it on screen.

We embed the data model and both functions shallowly.  `DiGraph` models
the relevant fragment of `networkx.DiGraph`: an insertion-ordered node
map (node id, optional `label` attribute) and an insertion-ordered edge
map (`from`, `to`, `label`).  Crucially, as in networkx, `add_edge`
inserts any endpoint that is not yet a node (without a `label`
attribute), and re-adding an existing node or edge overwrites its
attributes in place.  The renderer is modelled as a pure function
returning the drawn artifact together with the list of external effects
the body performs (directory creation, file save, the info log message,
on-screen display); the floating-point layout coordinates are not
modelled.
-/

namespace DepGraph

/-- A CoNLL-U token as consumed by `build_dependency_graph`: the loop body
reads the fields `id`, `form`, `upos`, `head` and `deprel`.  `head` is
optional because the `conllu` library yields `None` heads for some tokens
and the source guards with `head is not None`. -/
structure Token where
  id : Nat
  form : String
  upos : String
  head : Option Nat
  deprel : String
deriving DecidableEq, Repr

/-- The fragment of `networkx.DiGraph` the script uses: nodes in insertion
order, each with an optional `label` attribute, and edges in insertion
order, each `(from, to, label)`. -/
structure DiGraph where
  nodes : List (Nat × Option String)
  edges : List (Nat × Nat × String)
deriving DecidableEq, Repr

/-- The node ids of a graph, in insertion order. -/
def nodeIds (G : DiGraph) : List Nat := G.nodes.map Prod.fst

/-- Membership test `n in G` of networkx. -/
def hasNode (G : DiGraph) (n : Nat) : Bool :=
  (nodeIds G).any (fun m => m == n)

/-- `G.add_node(n, label=lab)`: a new node is appended; an existing node
keeps its position and gets its `label` attribute overwritten. -/
def addNode (G : DiGraph) (n : Nat) (lab : String) : DiGraph :=
  if hasNode G n then
    { G with nodes := G.nodes.map (fun p => if p.1 == n then (p.1, some lab) else p) }
  else
    { G with nodes := G.nodes ++ [(n, some lab)] }

/-- The node insertion `G.add_edge` performs on an endpoint that is not
yet present: the node is appended with no `label` attribute. -/
def ensureNode (G : DiGraph) (n : Nat) : DiGraph :=
  if hasNode G n then G else { G with nodes := G.nodes ++ [(n, none)] }

/-- Edge membership test `(u, v) in G.edges` of networkx. -/
def hasEdge (G : DiGraph) (u v : Nat) : Bool :=
  G.edges.any (fun e => e.1 == u && e.2.1 == v)

/-- `G.add_edge(u, v, label=lab)`: both endpoints are inserted if absent,
then the edge is appended, or its `label` attribute overwritten if the
edge already exists. -/
def addEdge (G : DiGraph) (u v : Nat) (lab : String) : DiGraph :=
  let G1 := ensureNode (ensureNode G u) v
  if hasEdge G1 u v then
    { G1 with edges := G1.edges.map (fun e => if e.1 == u && e.2.1 == v then (u, v, lab) else e) }
  else
    { G1 with edges := G1.edges ++ [(u, v, lab)] }

/-- The node label the script builds: `f"{word}/{pos}"`. -/
def nodeLabel (t : Token) : String := t.form ++ "/" ++ t.upos

/-- One iteration of the loop body of `build_dependency_graph`:
`G.add_node(token_id, label=...)` followed by
`if head is not None and head != 0: G.add_edge(head, token_id, label=deprel)`. -/
def addToken (G : DiGraph) (t : Token) : DiGraph :=
  let G1 := addNode G t.id (nodeLabel t)
  match t.head with
  | some h => if h ≠ 0 then addEdge G1 h t.id t.deprel else G1
  | none => G1

/-- The fresh `nx.DiGraph()` the builder starts from. -/
def emptyGraph : DiGraph := { nodes := [], edges := [] }

/-- `build_dependency_graph(sentence)`: fold the loop body over the token
sequence starting from an empty digraph. -/
def build_dependency_graph (sentence : List Token) : DiGraph :=
  sentence.foldl addToken emptyGraph

/-- The head reference that generates an edge, if any: `some h` when the
token's head is present and not the root sentinel `0`, else `none`. -/
def activeHead (t : Token) : Option Nat :=
  match t.head with
  | some h => if h ≠ 0 then some h else none
  | none => none

/-- The edge a single token contributes, if any:
`(head, id, deprel)` when the head is present and not `0`. -/
def edgeOf (t : Token) : Option (Nat × Nat × String) :=
  (activeHead t).map (fun h => (h, t.id, t.deprel))

end DepGraph

namespace DepGraph

/-- The side effects `visualize_graph` performs besides returning the
drawn artifact: `os.makedirs`, `plt.savefig`, `logger.info`,
`plt.show`, `plt.close`. -/
inductive Effect where
  | makedirs (dir : String)
  | savefig (path : String)
  | logInfo (msg : String)
  | showFig
  | closeFig
deriving DecidableEq, Repr

/-- The drawn artifact of `visualize_graph`: figure geometry, the drawn
node/edge elements and their labels, the title, axis visibility and DPI.
Layout coordinates (floating-point `spring_layout` output) are not
modelled. -/
structure RenderedImage where
  figWidth : Nat
  figHeight : Nat
  drawnNodes : List Nat
  drawnEdges : List (Nat × Nat)
  drawnNodeLabels : List (Nat × String)
  drawnEdgeLabels : List ((Nat × Nat) × String)
  title : String
  axisShown : Bool
  dpi : Nat
deriving DecidableEq, Repr

/-- `nx.get_node_attributes(G, "label")`: the nodes that carry a `label`
attribute, with their labels. -/
def getNodeAttributes (G : DiGraph) : List (Nat × String) :=
  G.nodes.filterMap (fun p => p.2.map (fun l => (p.1, l)))

/-- `nx.get_edge_attributes(G, "label")`: each edge keyed by its endpoint
pair, with its label. -/
def getEdgeAttributes (G : DiGraph) : List ((Nat × Nat) × String) :=
  G.edges.map (fun e => ((e.1, e.2.1), e.2.2))

/-- `os.path.join(output_dir, f"dependency_graph_{sent_id}.png")`. -/
def outputPath (output_dir sent_id : String) : String :=
  output_dir ++ "/dependency_graph_" ++ sent_id ++ ".png"

/-- `visualize_graph(G, sent_id, output_dir)`: returns the drawn artifact
(every node drawn via `draw_networkx_nodes`, every edge via
`draw_networkx_edges`, labels via `draw_networkx_labels` and
`draw_networkx_edge_labels`, 12times8 figure, axis off, DPI 300) together
with the list of external effects the body performs, in order:
`os.makedirs(output_dir)`, `plt.savefig(output_path, dpi=300)`,
`logger.info(f"Saved graph to {output_path}")`, `plt.show()`,
`plt.close()`. -/
def visualize_graph (G : DiGraph) (sent_id output_dir : String) :
    RenderedImage × List Effect :=
  let img : RenderedImage := {
    figWidth := 12
    figHeight := 8
    drawnNodes := nodeIds G
    drawnEdges := G.edges.map (fun e => (e.1, e.2.1))
    drawnNodeLabels := getNodeAttributes G
    drawnEdgeLabels := getEdgeAttributes G
    title := "Dependency Graph for Sentence ID: " ++ sent_id
    axisShown := false
    dpi := 300 }
  (img, [Effect.makedirs output_dir, Effect.savefig (outputPath output_dir sent_id),
         Effect.logInfo ("Saved graph to " ++ outputPath output_dir sent_id),
         Effect.showFig, Effect.closeFig])

end DepGraph

namespace DepGraph

/-! Basic lemmas about the graph operations. -/

lemma hasNode_iff (G : DiGraph) (n : Nat) : hasNode G n = true ↔ n ∈ nodeIds G := by
  simp [hasNode, List.any_eq_true]

lemma nodeIds_addNode (G : DiGraph) (n : Nat) (lab : String) :
    nodeIds (addNode G n lab) =
      if n ∈ nodeIds G then nodeIds G else nodeIds G ++ [n] := by
  by_cases h : n ∈ nodeIds G
  · have hb : hasNode G n = true := (hasNode_iff G n).mpr h
    simp only [addNode, hb, if_true, if_pos h]
    show (G.nodes.map _).map Prod.fst = G.nodes.map Prod.fst
    rw [List.map_map]
    apply List.map_congr_left
    intro p _
    simp only [Function.comp_apply]
    split <;> rfl
  · have hb : hasNode G n = false := by
      cases hhb : hasNode G n with
      | true => exact absurd ((hasNode_iff G n).mp hhb) h
      | false => rfl
    simp only [addNode, hb, if_neg h]
    show (G.nodes ++ [(n, some lab)]).map Prod.fst = G.nodes.map Prod.fst ++ [n]
    simp [nodeIds]

lemma nodeIds_ensureNode (G : DiGraph) (n : Nat) :
    nodeIds (ensureNode G n) =
      if n ∈ nodeIds G then nodeIds G else nodeIds G ++ [n] := by
  by_cases h : n ∈ nodeIds G
  · have hb : hasNode G n = true := (hasNode_iff G n).mpr h
    simp [ensureNode, hb, if_pos h]
  · have hb : hasNode G n = false := by
      cases hhb : hasNode G n with
      | true => exact absurd ((hasNode_iff G n).mp hhb) h
      | false => rfl
    simp only [ensureNode, hb, Bool.false_eq_true, if_false, if_neg h]
    show (G.nodes ++ [(n, none)]).map Prod.fst = G.nodes.map Prod.fst ++ [n]
    simp [nodeIds]

lemma mem_nodeIds_addNode (G : DiGraph) (n : Nat) (lab : String) (m : Nat) :
    m ∈ nodeIds (addNode G n lab) ↔ m = n ∨ m ∈ nodeIds G := by
  rw [nodeIds_addNode]
  by_cases h : n ∈ nodeIds G
  · rw [if_pos h]
    constructor
    · exact Or.inr
    · rintro (rfl | hm)
      · exact h
      · exact hm
  · rw [if_neg h]
    simp [or_comm]

lemma mem_nodeIds_ensureNode (G : DiGraph) (n : Nat) (m : Nat) :
    m ∈ nodeIds (ensureNode G n) ↔ m = n ∨ m ∈ nodeIds G := by
  rw [nodeIds_ensureNode]
  by_cases h : n ∈ nodeIds G
  · rw [if_pos h]
    constructor
    · exact Or.inr
    · rintro (rfl | hm)
      · exact h
      · exact hm
  · rw [if_neg h]
    simp [or_comm]

lemma nodup_nodeIds_addNode (G : DiGraph) (n : Nat) (lab : String)
    (h : (nodeIds G).Nodup) : (nodeIds (addNode G n lab)).Nodup := by
  rw [nodeIds_addNode]
  by_cases hn : n ∈ nodeIds G
  · rwa [if_pos hn]
  · rw [if_neg hn]
    exact List.Nodup.append h (List.nodup_singleton n) (by simpa using hn)

lemma nodup_nodeIds_ensureNode (G : DiGraph) (n : Nat)
    (h : (nodeIds G).Nodup) : (nodeIds (ensureNode G n)).Nodup := by
  rw [nodeIds_ensureNode]
  by_cases hn : n ∈ nodeIds G
  · rwa [if_pos hn]
  · rw [if_neg hn]
    exact List.Nodup.append h (List.nodup_singleton n) (by simpa using hn)

lemma edges_addNode (G : DiGraph) (n : Nat) (lab : String) :
    (addNode G n lab).edges = G.edges := by
  unfold addNode
  split <;> rfl

lemma edges_ensureNode (G : DiGraph) (n : Nat) :
    (ensureNode G n).edges = G.edges := by
  unfold ensureNode
  split <;> rfl

lemma nodes_addEdge (G : DiGraph) (u v : Nat) (lab : String) :
    (addEdge G u v lab).nodes = (ensureNode (ensureNode G u) v).nodes := by
  simp only [addEdge]
  split <;> rfl

lemma mem_nodeIds_addEdge (G : DiGraph) (u v : Nat) (lab : String) (m : Nat) :
    m ∈ nodeIds (addEdge G u v lab) ↔ m = u ∨ m = v ∨ m ∈ nodeIds G := by
  show m ∈ (addEdge G u v lab).nodes.map Prod.fst ↔ _
  rw [nodes_addEdge]
  have h1 := mem_nodeIds_ensureNode (ensureNode G u) v m
  have h2 := mem_nodeIds_ensureNode G u m
  unfold nodeIds at h1 h2
  rw [h1, h2]
  tauto

lemma nodup_nodeIds_addEdge (G : DiGraph) (u v : Nat) (lab : String)
    (h : (nodeIds G).Nodup) : (nodeIds (addEdge G u v lab)).Nodup := by
  show ((addEdge G u v lab).nodes.map Prod.fst).Nodup
  rw [nodes_addEdge]
  exact nodup_nodeIds_ensureNode _ v (nodup_nodeIds_ensureNode _ u h)

lemma mem_nodeIds_addToken (G : DiGraph) (t : Token) (m : Nat) :
    m ∈ nodeIds (addToken G t) ↔
      m = t.id ∨ activeHead t = some m ∨ m ∈ nodeIds G := by
  simp only [addToken, activeHead]
  cases t.head with
  | none => simp [mem_nodeIds_addNode]
  | some h =>
    dsimp only
    split_ifs with h0
    · rw [mem_nodeIds_addEdge, mem_nodeIds_addNode]
      constructor
      · rintro (rfl | rfl | rfl | hm)
        · exact Or.inr (Or.inl rfl)
        · exact Or.inl rfl
        · exact Or.inl rfl
        · exact Or.inr (Or.inr hm)
      · rintro (rfl | hsome | hm)
        · exact Or.inr (Or.inl rfl)
        · cases hsome
          exact Or.inl rfl
        · exact Or.inr (Or.inr (Or.inr hm))
    · simp [mem_nodeIds_addNode]

lemma nodup_nodeIds_addToken (G : DiGraph) (t : Token)
    (h : (nodeIds G).Nodup) : (nodeIds (addToken G t)).Nodup := by
  simp only [addToken]
  cases t.head with
  | none => exact nodup_nodeIds_addNode _ _ _ h
  | some hd =>
    dsimp only
    split_ifs with h0
    · exact nodup_nodeIds_addEdge _ _ _ _ (nodup_nodeIds_addNode _ _ _ h)
    · exact nodup_nodeIds_addNode _ _ _ h

/-! Lemmas about the whole builder fold. -/

lemma mem_filterMap_activeHead_cons (t : Token) (rest : List Token) (m : Nat) :
    m ∈ (t :: rest).filterMap activeHead ↔
      activeHead t = some m ∨ m ∈ rest.filterMap activeHead := by
  rw [List.filterMap_cons]
  cases hah : activeHead t with
  | none =>
    dsimp only
    constructor
    · exact Or.inr
    · rintro (h | h)
      · exact absurd h (by simp)
      · exact h
  | some a =>
    dsimp only
    rw [List.mem_cons]
    constructor
    · rintro (rfl | h)
      · exact Or.inl rfl
      · exact Or.inr h
    · rintro (h | h)
      · cases h
        exact Or.inl rfl
      · exact Or.inr h

lemma mem_nodeIds_foldl (ts : List Token) (G : DiGraph) (m : Nat) :
    m ∈ nodeIds (ts.foldl addToken G) ↔
      m ∈ nodeIds G ∨ m ∈ ts.map Token.id ∨ m ∈ ts.filterMap activeHead := by
  induction ts generalizing G with
  | nil => simp
  | cons t rest ih =>
    rw [List.foldl_cons, ih, mem_nodeIds_addToken,
      mem_filterMap_activeHead_cons, List.map_cons, List.mem_cons]
    tauto

lemma nodup_nodeIds_foldl (ts : List Token) (G : DiGraph)
    (h : (nodeIds G).Nodup) : (nodeIds (ts.foldl addToken G)).Nodup := by
  induction ts generalizing G with
  | nil => exact h
  | cons t rest ih => exact ih _ (nodup_nodeIds_addToken _ _ h)

lemma nodup_nodeIds_build (ts : List Token) :
    (nodeIds (build_dependency_graph ts)).Nodup :=
  nodup_nodeIds_foldl ts emptyGraph List.nodup_nil

lemma mem_nodeIds_build (ts : List Token) (m : Nat) :
    m ∈ nodeIds (build_dependency_graph ts) ↔
      m ∈ ts.map Token.id ∨ m ∈ ts.filterMap activeHead := by
  rw [build_dependency_graph, mem_nodeIds_foldl]
  simp [nodeIds, emptyGraph]

lemma toFinset_nodeIds_build (ts : List Token) :
    (nodeIds (build_dependency_graph ts)).toFinset =
      (ts.map Token.id).toFinset ∪ (ts.filterMap activeHead).toFinset := by
  ext m
  simp [mem_nodeIds_build]

/-! Edge-side lemmas. -/

lemma edges_addEdge_of_to_ne (G : DiGraph) (u v : Nat) (lab : String)
    (h : ∀ e ∈ G.edges, e.2.1 ≠ v) :
    (addEdge G u v lab).edges = G.edges ++ [(u, v, lab)] := by
  have hE : hasEdge (ensureNode (ensureNode G u) v) u v = false := by
    rw [hasEdge, edges_ensureNode, edges_ensureNode, List.any_eq_false]
    intro e he
    simp only [Bool.and_eq_true, beq_iff_eq, not_and]
    exact fun _ hv => h e he hv
  simp [addEdge, hE, edges_ensureNode]

lemma edges_addToken_of_to_ne (G : DiGraph) (t : Token)
    (h : ∀ e ∈ G.edges, e.2.1 ≠ t.id) :
    (addToken G t).edges = G.edges ++ (edgeOf t).toList := by
  simp only [addToken, edgeOf, activeHead]
  cases t.head with
  | none => simp [edges_addNode]
  | some hd =>
    dsimp only
    split_ifs with h0
    · rw [edges_addEdge_of_to_ne _ _ _ _ (by rw [edges_addNode]; exact h)]
      simp [edges_addNode]
    · simp [edges_addNode]

lemma to_eq_of_mem_edgeOf_toList (t : Token) (e : Nat × Nat × String)
    (he : e ∈ (edgeOf t).toList) : e.2.1 = t.id := by
  cases hah : activeHead t with
  | none => simp [edgeOf, hah] at he
  | some a =>
    simp [edgeOf, hah] at he
    rw [he]

lemma edges_foldl (ts : List Token) (G : DiGraph)
    (hnd : (ts.map Token.id).Nodup)
    (hG : ∀ e ∈ G.edges, e.2.1 ∉ ts.map Token.id) :
    (ts.foldl addToken G).edges = G.edges ++ ts.filterMap edgeOf := by
  induction ts generalizing G with
  | nil => simp
  | cons t rest ih =>
    rw [List.map_cons, List.nodup_cons] at hnd
    have h1 : ∀ e ∈ G.edges, e.2.1 ≠ t.id := by
      intro e he
      have := hG e he
      simp only [List.map_cons, List.mem_cons, not_or] at this
      exact this.1
    have h2 : ∀ e ∈ (addToken G t).edges, e.2.1 ∉ rest.map Token.id := by
      intro e he
      rw [edges_addToken_of_to_ne G t h1] at he
      rcases List.mem_append.mp he with hold | hnew
      · have := hG e hold
        simp only [List.map_cons, List.mem_cons, not_or] at this
        exact this.2
      · rw [to_eq_of_mem_edgeOf_toList t e hnew]
        exact hnd.1
    rw [List.foldl_cons, ih _ hnd.2 h2, edges_addToken_of_to_ne G t h1,
      List.append_assoc]
    congr 1
    cases hah : edgeOf t <;> simp [List.filterMap_cons, hah]

lemma build_edges_eq (ts : List Token) (hnd : (ts.map Token.id).Nodup) :
    (build_dependency_graph ts).edges = ts.filterMap edgeOf := by
  rw [build_dependency_graph,
    edges_foldl ts emptyGraph hnd (by intro e he; simp [emptyGraph] at he)]
  rfl

lemma length_filterMap_eq_length_filter {α β : Type _} (f : α → Option β)
    (l : List α) :
    (l.filterMap f).length = (l.filter (fun a => (f a).isSome)).length := by
  induction l with
  | nil => rfl
  | cons a as ih =>
    cases h : f a <;> simp [List.filterMap_cons, List.filter_cons, h, ih]

lemma map_to_edges_sublist (ts : List Token) :
    ((ts.filterMap edgeOf).map (fun e => e.2.1)).Sublist (ts.map Token.id) := by
  induction ts with
  | nil => simp
  | cons t rest ih =>
    cases hah : activeHead t with
    | none =>
      have h : edgeOf t = none := by simp [edgeOf, hah]
      simp only [List.filterMap_cons, h, List.map_cons]
      exact ih.cons _
    | some a =>
      have h : edgeOf t = some (a, t.id, t.deprel) := by simp [edgeOf, hah]
      simp only [List.filterMap_cons, h, List.map_cons]
      exact ih.cons₂ _

lemma length_filter_beq_le_one {α : Type _} (f : α → Nat) (n : Nat)
    (l : List α) (h : (l.map f).Nodup) :
    (l.filter (fun a => f a == n)).length ≤ 1 := by
  induction l with
  | nil => simp
  | cons a as ih =>
    rw [List.map_cons, List.nodup_cons] at h
    by_cases hfa : f a = n
    · have hnil : as.filter (fun b => f b == n) = [] := by
        apply List.eq_nil_iff_forall_not_mem.mpr
        intro b hb
        rw [List.mem_filter] at hb
        have hfb : f b = n := by simpa using hb.2
        exact h.1 (List.mem_map.mpr ⟨b, hb.1, hfb.trans hfa.symm⟩)
      simp [List.filter_cons, hfa, hnil]
    · simp only [List.filter_cons, hfa]
      simpa [hfa] using ih h.2

/-! Edge-endpoint closure (the networkx invariant behind claim C4). -/

lemma mem_nodeIds_mono_addToken (G : DiGraph) (t : Token) (m : Nat)
    (h : m ∈ nodeIds G) : m ∈ nodeIds (addToken G t) := by
  rw [mem_nodeIds_addToken]
  exact Or.inr (Or.inr h)

lemma mem_edges_addEdge (G : DiGraph) (u v : Nat) (lab : String)
    (e : Nat × Nat × String) (he : e ∈ (addEdge G u v lab).edges) :
    (e.1 = u ∧ e.2.1 = v) ∨ e ∈ G.edges := by
  simp only [addEdge] at he
  split at he
  · dsimp only at he
    rw [edges_ensureNode, edges_ensureNode] at he
    rcases List.mem_map.mp he with ⟨e', he', hfe⟩
    by_cases hc : (e'.1 == u && e'.2.1 == v) = true
    · rw [if_pos hc] at hfe
      left
      rw [← hfe]
      exact ⟨rfl, rfl⟩
    · rw [if_neg hc] at hfe
      right
      rwa [hfe] at he'
  · dsimp only at he
    rw [edges_ensureNode, edges_ensureNode] at he
    rcases List.mem_append.mp he with h | h
    · exact Or.inr h
    · left
      have he' : e = (u, v, lab) := by simpa using h
      rw [he']
      exact ⟨rfl, rfl⟩

lemma edges_addToken_cases (G : DiGraph) (t : Token) (e : Nat × Nat × String)
    (he : e ∈ (addToken G t).edges) :
    e ∈ G.edges ∨ (activeHead t = some e.1 ∧ e.2.1 = t.id) := by
  simp only [addToken] at he
  cases hh : t.head with
  | none =>
    rw [hh] at he
    dsimp only at he
    rw [edges_addNode] at he
    exact Or.inl he
  | some hd =>
    rw [hh] at he
    dsimp only at he
    split_ifs at he with h0
    · rcases mem_edges_addEdge _ _ _ _ _ he with ⟨h1, h2⟩ | hold
      · right
        refine ⟨?_, h2⟩
        simp [activeHead, hh, h0, h1]
      · rw [edges_addNode] at hold
        exact Or.inl hold
    · rw [edges_addNode] at he
      exact Or.inl he

/-- The structural invariant of claim C4: every edge's endpoints are
present among the graph's node ids. -/
def edgeEndpointsPresent (G : DiGraph) : Prop :=
  ∀ e ∈ G.edges, e.1 ∈ nodeIds G ∧ e.2.1 ∈ nodeIds G

lemma edgeEndpointsPresent_addToken (G : DiGraph) (t : Token)
    (h : edgeEndpointsPresent G) : edgeEndpointsPresent (addToken G t) := by
  intro e he
  rcases edges_addToken_cases G t e he with hold | ⟨hah, hto⟩
  · exact ⟨mem_nodeIds_mono_addToken _ _ _ (h e hold).1,
      mem_nodeIds_mono_addToken _ _ _ (h e hold).2⟩
  · constructor
    · rw [mem_nodeIds_addToken]
      exact Or.inr (Or.inl hah)
    · rw [hto, mem_nodeIds_addToken]
      exact Or.inl rfl

lemma edgeEndpointsPresent_foldl (ts : List Token) (G : DiGraph)
    (h : edgeEndpointsPresent G) : edgeEndpointsPresent (ts.foldl addToken G) := by
  induction ts generalizing G with
  | nil => exact h
  | cons t rest ih => exact ih _ (edgeEndpointsPresent_addToken G t h)

/-- The worked example sentence of the documentation: "Dogs run", with
`run` as the root (`head = 0`) and `Dogs` depending on it. -/
def exampleSentence : List Token :=
  [⟨1, "Dogs", "NOUN", some 2, "nsubj"⟩, ⟨2, "run", "VERB", some 0, "root"⟩]

-- Sanity checks against the worked examples in the documentation.

example :
    build_dependency_graph
      [⟨1, "Dogs", "NOUN", some 2, "nsubj"⟩, ⟨2, "run", "VERB", some 0, "root"⟩] =
    { nodes := [(1, some "Dogs/NOUN"), (2, some "run/VERB")],
      edges := [(2, 1, "nsubj")] } := by decide

example :
    build_dependency_graph [⟨1, "X", "NOUN", some 99, "dep"⟩] =
    { nodes := [(1, some "X/NOUN"), (99, none)],
      edges := [(99, 1, "dep")] } := by decide

end DepGraph

namespace DepGraph

/-! The claims. -/

/-- Claim C1, counterexample: on the empty token sequence
`build_dependency_graph` does not fail — there is no emptiness check and
no `InvalidInput` error in the function — it returns a graph, namely the
empty one. -/
theorem build_empty_returns_graph_cex :
    build_dependency_graph [] = emptyGraph := rfl

/-- Claim C1, amended: for the empty token sequence,
`build_dependency_graph` succeeds and returns the empty graph (zero
nodes, zero edges) rather than failing with `InvalidInput`. -/
theorem build_empty_yields_empty_graph :
    (build_dependency_graph []).nodes = [] ∧
      (build_dependency_graph []).edges = [] :=
  ⟨rfl, rfl⟩

/-- Claim C2, counterexample: a non-empty token sequence with unique ids
whose single token has the dangling head `99` yields a graph with 2
nodes, not 1 — `add_edge` inserts the unresolved head id as an extra
node, so the node count is not `len(tokens)` regardless of head
values. -/
theorem build_node_count_cex :
    (([⟨1, "X", "NOUN", some 99, "dep"⟩] : List Token) ≠ [] ∧
      (([⟨1, "X", "NOUN", some 99, "dep"⟩] : List Token).map Token.id).Nodup) ∧
    (build_dependency_graph [⟨1, "X", "NOUN", some 99, "dep"⟩]).nodes.length ≠
      ([⟨1, "X", "NOUN", some 99, "dep"⟩] : List Token).length := by
  refine ⟨⟨by decide, by decide⟩, by decide⟩

/-- Claim C2, amended: for every non-empty token sequence with unique
ids in which every non-sentinel head refers to some token's id, the
graph returned by `build_dependency_graph` has exactly one node entry
per input token: its node count equals the number of input tokens. -/
theorem build_node_count_eq (ts : List Token) (_hne : ts ≠ [])
    (hids : (ts.map Token.id).Nodup)
    (hheads : ∀ h ∈ ts.filterMap activeHead, h ∈ ts.map Token.id) :
    (build_dependency_graph ts).nodes.length = ts.length := by
  have hnd := nodup_nodeIds_build ts
  have h1 : (build_dependency_graph ts).nodes.length =
      (nodeIds (build_dependency_graph ts)).length :=
    (List.length_map _ _).symm
  rw [h1, ← List.toFinset_card_of_nodup hnd, toFinset_nodeIds_build]
  have hsub : (ts.filterMap activeHead).toFinset ⊆ (ts.map Token.id).toFinset := by
    intro x hx
    rw [List.mem_toFinset] at hx ⊢
    exact hheads x hx
  rw [Finset.union_eq_left.mpr hsub, List.toFinset_card_of_nodup hids,
    List.length_map]

/-- Claim C2, witness: the documentation's two-token example satisfies
the hypotheses and its graph has exactly 2 nodes. -/
theorem build_node_count_eq_witness :
    (exampleSentence ≠ [] ∧ (exampleSentence.map Token.id).Nodup ∧
      ∀ h ∈ exampleSentence.filterMap activeHead,
        h ∈ exampleSentence.map Token.id) ∧
    (build_dependency_graph exampleSentence).nodes.length =
      exampleSentence.length :=
  ⟨⟨by decide, by decide, by decide⟩,
    build_node_count_eq exampleSentence (by decide) (by decide) (by decide)⟩

/-- Claim C3: for a token sequence with unique ids, the edge list of the
built graph is exactly the in-order list of `(head, id, relation)`
triples of the tokens whose head is present and not the sentinel `0` —
each such token contributes exactly one directed edge from its head to
its id labelled with its relation, tokens with head `0` (or no head)
contribute none — and the edge count equals the number of tokens with a
non-sentinel head. -/
theorem build_edges_characterization (ts : List Token)
    (hids : (ts.map Token.id).Nodup) :
    (build_dependency_graph ts).edges = ts.filterMap edgeOf ∧
      (build_dependency_graph ts).edges.length =
        (ts.filter (fun t => (activeHead t).isSome)).length := by
  refine ⟨build_edges_eq ts hids, ?_⟩
  rw [build_edges_eq ts hids, length_filterMap_eq_length_filter]
  congr 1
  apply List.filter_congr
  intro t _
  show ((activeHead t).map _).isSome = (activeHead t).isSome
  cases activeHead t <;> rfl

/-- Claim C3, witness: on the documentation's example the edge list is
exactly `[(2, 1, "nsubj")]`, one edge for the one non-root token. -/
theorem build_edges_characterization_witness :
    (exampleSentence.map Token.id).Nodup ∧
      ((build_dependency_graph exampleSentence).edges =
          exampleSentence.filterMap edgeOf ∧
        (build_dependency_graph exampleSentence).edges.length =
          (exampleSentence.filter (fun t => (activeHead t).isSome)).length) :=
  ⟨by decide, build_edges_characterization exampleSentence (by decide)⟩

/-- Claim C4: every edge of a graph returned by
`build_dependency_graph` has its `from` and `to` endpoint ids present in
the node mapping — including when a token's head matches no token id,
because `add_edge` inserts any missing endpoint as a node. -/
theorem build_edge_endpoints_present (ts : List Token)
    (e : Nat × Nat × String) (he : e ∈ (build_dependency_graph ts).edges) :
    e.1 ∈ nodeIds (build_dependency_graph ts) ∧
      e.2.1 ∈ nodeIds (build_dependency_graph ts) :=
  edgeEndpointsPresent_foldl ts emptyGraph
    (by intro e' he'; simp [emptyGraph] at he') e he

/-- Claim C4, witness: with a dangling head `99`, the recorded edge
`(99, 1)` still has both endpoints among the node ids. -/
theorem build_edge_endpoints_present_witness :
    ((99, 1, "dep") ∈
        (build_dependency_graph [⟨1, "X", "NOUN", some 99, "dep"⟩]).edges) ∧
      ((99, 1, "dep").1 ∈
          nodeIds (build_dependency_graph [⟨1, "X", "NOUN", some 99, "dep"⟩]) ∧
        (99, 1, "dep").2.1 ∈
          nodeIds (build_dependency_graph [⟨1, "X", "NOUN", some 99, "dep"⟩])) :=
  ⟨by decide, build_edge_endpoints_present _ _ (by decide)⟩

/-- Claim C5: in a token sequence with unique ids, a token whose head is
the sentinel `0` contributes a node keyed by its id, and no edge of the
built graph has that id as its `to` endpoint — root tokens have no
incoming edge. -/
theorem build_root_has_no_incoming_edge (ts : List Token) (t : Token)
    (hids : (ts.map Token.id).Nodup) (ht : t ∈ ts)
    (hroot : t.head = some 0) :
    t.id ∈ nodeIds (build_dependency_graph ts) ∧
      ∀ e ∈ (build_dependency_graph ts).edges, e.2.1 ≠ t.id := by
  constructor
  · rw [mem_nodeIds_build]
    exact Or.inl (List.mem_map.mpr ⟨t, ht, rfl⟩)
  · intro e he hto
    rw [build_edges_eq ts hids] at he
    rcases List.mem_filterMap.mp he with ⟨t', ht', hf⟩
    have h1 : e.2.1 = t'.id := by
      unfold edgeOf at hf
      cases hah : activeHead t' with
      | none =>
        rw [hah] at hf
        simp at hf
      | some a =>
        rw [hah] at hf
        simp at hf
        rw [← hf]
    have h2 : t' = t := List.inj_on_of_nodup_map hids ht' ht (h1 ▸ hto)
    subst h2
    simp [edgeOf, activeHead, hroot] at hf

/-- Claim C5, witness: in the documentation's example the root token
(id 2, head 0) has a node and no incoming edge. -/
theorem build_root_has_no_incoming_edge_witness :
    ((exampleSentence.map Token.id).Nodup ∧
      (⟨2, "run", "VERB", some 0, "root"⟩ : Token) ∈ exampleSentence ∧
      (⟨2, "run", "VERB", some 0, "root"⟩ : Token).head = some 0) ∧
    ((2 : Nat) ∈ nodeIds (build_dependency_graph exampleSentence) ∧
      ∀ e ∈ (build_dependency_graph exampleSentence).edges, e.2.1 ≠ 2) :=
  ⟨⟨by decide, by decide, by decide⟩,
    build_root_has_no_incoming_edge exampleSentence
      ⟨2, "run", "VERB", some 0, "root"⟩ (by decide) (by decide) (by decide)⟩

/-- Claim C7, counterexample: `visualize_graph` is not free of side
effects beyond the returned artifact — already on the empty graph its
effect trace contains persisting the PNG to storage (`plt.savefig`) and
displaying it on screen (`plt.show`). -/
theorem visualize_graph_side_effects_cex :
    Effect.savefig "out/dependency_graph_s.png" ∈
        (visualize_graph emptyGraph "s" "out").2 ∧
      Effect.showFig ∈ (visualize_graph emptyGraph "s" "out").2 := by
  decide

/-- Claim C7, amended: for every input graph, `visualize_graph` itself
persists the rendered image to
`output_dir/dependency_graph_{sent_id}.png` and displays it on screen;
its side effects are exactly the directory creation, the PNG save, an
info log message reporting the save, the on-screen display and the
figure close, in that order. -/
theorem visualize_graph_effect_trace (G : DiGraph)
    (sent_id output_dir : String) :
    (visualize_graph G sent_id output_dir).2 =
      [Effect.makedirs output_dir,
        Effect.savefig (outputPath output_dir sent_id),
        Effect.logInfo ("Saved graph to " ++ outputPath output_dir sent_id),
        Effect.showFig, Effect.closeFig] := rfl

/-- Claim C8: rendering the graph with zero nodes and zero edges
succeeds and yields an artifact with zero drawn nodes, zero drawn edges
and no node or edge labels — an empty canvas. -/
theorem visualize_graph_empty_canvas (sent_id output_dir : String) :
    (visualize_graph emptyGraph sent_id output_dir).1.drawnNodes = [] ∧
      (visualize_graph emptyGraph sent_id output_dir).1.drawnEdges = [] ∧
      (visualize_graph emptyGraph sent_id output_dir).1.drawnNodeLabels = [] ∧
      (visualize_graph emptyGraph sent_id output_dir).1.drawnEdgeLabels = [] :=
  ⟨rfl, rfl, rfl, rfl⟩

/-- Order-independent equality of graphs: the node and edge collections
agree as multisets — the same entries with the same labels, in any
order. -/
def graphSetEquiv (G H : DiGraph) : Prop :=
  G.nodes.Perm H.nodes ∧ G.edges.Perm H.edges

/-- Claim C9: `build_dependency_graph` is deterministic and idempotent —
two builds of the same token sequence are equal outright, and in
particular have identical node and edge sets with identical labels
under order-independent equality. -/
theorem build_idempotent (ts : List Token) :
    build_dependency_graph ts = build_dependency_graph ts ∧
      graphSetEquiv (build_dependency_graph ts) (build_dependency_graph ts) :=
  ⟨rfl, List.Perm.refl _, List.Perm.refl _⟩

/-- The in-degree of node `n`: the number of edges whose `to` endpoint
is `n`. -/
def inDegree (G : DiGraph) (n : Nat) : Nat :=
  (G.edges.filter (fun e => e.2.1 == n)).length

/-- Claim C10: in the graph built from a token sequence with unique
ids, every node has in-degree at most one, because each edge's `to`
endpoint is the id of the unique token that generated it. -/
theorem build_in_degree_le_one (ts : List Token)
    (hids : (ts.map Token.id).Nodup) (n : Nat) :
    inDegree (build_dependency_graph ts) n ≤ 1 := by
  rw [inDegree, build_edges_eq ts hids]
  exact length_filter_beq_le_one (fun e : Nat × Nat × String => e.2.1) n _
    (List.Nodup.sublist (map_to_edges_sublist ts) hids)

/-- Claim C10, witness: in the documentation's example, node 1 has
in-degree at most one. -/
theorem build_in_degree_le_one_witness :
    (exampleSentence.map Token.id).Nodup ∧
      inDegree (build_dependency_graph exampleSentence) 1 ≤ 1 :=
  ⟨by decide, build_in_degree_le_one exampleSentence (by decide) 1⟩

end DepGraph
